import Mathlib

/-!
Verification development for the notion-orm repository.

The definitions below are shallow embeddings of the repository's TypeScript
source (src/helpers.ts, src/db-client/DatabaseClient.ts, src/client/query.ts,
src/ast/zod-schema.ts, src/ast/database/generate-databases-cli.ts,
src/ast/database-file-writer.ts, src/cli/helpers.ts, src/type-generation.ts).
JavaScript objects are modelled as association lists in insertion order,
`undefined`/absent fields as `Option`, and thrown exceptions as `Except`.
-/

namespace NotionOrm

/-! ## camelize (src/helpers.ts)

`camelize` first removes every character that is not ASCII alphanumeric or
whitespace, then performs the regex replace
`cleaned.replace(/(?:^\w|[A-Z]|\b\w|\s+)/g, cb)` where the callback drops a
match whose numeric coercion is `0` (whitespace runs and the digit `"0"`),
lowercases the match at index 0 and uppercases any other match.  The scanner
below walks the cleaned characters tracking whether we are at index 0 and
whether the previous character was a word character (for the `\b` boundary);
each whitespace character of a `\s+` run is dropped individually, which yields
the same output as dropping the run at once. -/

def jsIsAlnum (c : Char) : Bool := c.isAlpha || c.isDigit

/-- ASCII whitespace characters matched by the JavaScript regex class. -/
def jsIsSpace (c : Char) : Bool :=
  c = ' ' || c = '\t' || c = '\n' || c = '\r' || c = '\x0b' || c = '\x0c'

/-- JavaScript word character class. -/
def jsIsWordChar (c : Char) : Bool := c.isAlpha || c.isDigit || c = '_'

def camelizeScan : Bool → Bool → List Char → List Char
  | _, _, [] => []
  | first, prevWord, c :: rest =>
    if jsIsSpace c then
      camelizeScan false false rest
    else if jsIsWordChar c then
      if first then
        (if c = '0' then [] else [c.toLower]) ++ camelizeScan false true rest
      else if c.isUpper then
        c :: camelizeScan false true rest
      else if !prevWord then
        (if c = '0' then [] else [c.toUpper]) ++ camelizeScan false true rest
      else
        c :: camelizeScan false true rest
    else
      c :: camelizeScan false (jsIsWordChar c) rest

def camelize (str : String) : String :=
  ⟨camelizeScan true false (str.data.filter (fun c => jsIsAlnum c || jsIsSpace c))⟩

/-! ## Property kinds (src/db-client/queryTypes.ts)

`DatabasePropertyType` enumerates the Notion property kinds, and
`SUPPORTED_PROPERTY_TYPES` is the support table from the source. -/

inductive DatabasePropertyType where
  | formula | files | people | relation | rollup
  | created_by | last_edited_by | created_time | last_edited_time
  | url | phone_number | title | email | checkbox | date
  | multi_select | status | number | rich_text | select | unique_id
deriving DecidableEq, Repr

def SUPPORTED_PROPERTY_TYPES : DatabasePropertyType → Bool
  | .formula => false
  | .files => false
  | .people => false
  | .relation => false
  | .rollup => false
  | .created_by => false
  | .last_edited_by => false
  | .created_time => false
  | .last_edited_time => false
  | .url => true
  | .phone_number => true
  | .title => true
  | .email => true
  | .checkbox => true
  | .date => true
  | .multi_select => true
  | .status => true
  | .number => true
  | .rich_text => true
  | .select => true
  | .unique_id => true

def isSupportedPropertyType (t : DatabasePropertyType) : Bool :=
  SUPPORTED_PROPERTY_TYPES t

/-- The JavaScript string naming each property kind; used as the key under
which a leaf filter's condition object is stored on the wire filter. -/
def kindKey : DatabasePropertyType → String
  | .formula => "formula"
  | .files => "files"
  | .people => "people"
  | .relation => "relation"
  | .rollup => "rollup"
  | .created_by => "created_by"
  | .last_edited_by => "last_edited_by"
  | .created_time => "created_time"
  | .last_edited_time => "last_edited_time"
  | .url => "url"
  | .phone_number => "phone_number"
  | .title => "title"
  | .email => "email"
  | .checkbox => "checkbox"
  | .date => "date"
  | .multi_select => "multi_select"
  | .status => "status"
  | .number => "number"
  | .rich_text => "rich_text"
  | .select => "select"
  | .unique_id => "unique_id"

/-! ## Column mapping (camelPropertyNameToNameAndTypeMap) -/

structure ColEntry where
  columnName : String
  type : DatabasePropertyType
deriving DecidableEq, Repr

/-- A JavaScript object keyed by camelized property names, in insertion
order. -/
abbrev ColMap := List (String × ColEntry)

/-- Property lookup on a JavaScript object: the keys are unique, the first
match wins. -/
def lookupCol : ColMap → String → Option ColEntry
  | [], _ => none
  | (k, e) :: rest, key => if k = key then some e else lookupCol rest key

/-- JavaScript property assignment `obj[k] = v`: replace an existing key or
append at the end. -/
def jsObjSet {α : Type} : List (String × α) → String → α → List (String × α)
  | [], k, v => [(k, v)]
  | (k', v') :: rest, k, v =>
    if k' = k then (k, v) :: rest else (k', v') :: jsObjSet rest k v

/-- The column-mapping construction loop of `createTypescriptFileForDatabase`
(src/ast/database-file-writer.ts): each supported property is stored under
its camelized name with the original remote name and its kind; unsupported
properties are skipped. -/
def buildColumnMap (props : List (String × DatabasePropertyType)) : ColMap :=
  props.foldl
    (fun m p =>
      if isSupportedPropertyType p.2 then
        jsObjSet m (camelize p.1) ⟨p.1, p.2⟩
      else m)
    []

/-! ## Raw response values (src/client/query.ts)

`JVal` is a lightweight model of JavaScript values appearing in a raw Notion
property object; `jundefined` stands for `undefined`. -/

inductive JVal where
  | jnull
  | jundefined
  | jstr (s : String)
  | jnum (n : Int)
  | jbool (b : Bool)
  | jarr (xs : List JVal)
  | jobj (fields : List (String × JVal))

/-- Field access `x.f` on a modelled JavaScript value: `undefined` when the
field is absent or the value is not an object. -/
def jget : JVal → String → JVal
  | .jobj fields, f =>
    match fields.lookup f with
    | some v => v
    | none => .jundefined
  | _, _ => .jundefined

/-- JavaScript truthiness for modelled values. -/
def jsTruthy : JVal → Bool
  | .jnull => false
  | .jundefined => false
  | .jstr s => s ≠ ""
  | .jnum n => n ≠ 0
  | .jbool b => b
  | .jarr _ => true
  | .jobj _ => true

/-- How a value contributes to `Array.prototype.join`: `null`/`undefined`
become the empty string. -/
def jsJoinString : JVal → String
  | .jnull => ""
  | .jundefined => ""
  | .jstr s => s
  | .jnum n => toString n
  | .jbool b => if b then "true" else "false"
  | .jarr _ => ""
  | .jobj _ => ""

/-- `getResponseValue` (src/client/query.ts): extract the simplified value of
one raw property according to the declared column type.  Mapping over a text
array extracts each run's `plain_text` and joins the results; non-array
values in a place the source maps over are never produced by the claims'
inputs and are totalised to `null`. -/
def getResponseValue (prop : DatabasePropertyType) (x : JVal) : JVal :=
  match prop with
  | .select =>
    if jsTruthy (jget x "select") then jget (jget x "select") "name" else .jnull
  | .title =>
    match jget x "title" with
    | .jarr runs => .jstr (String.join (runs.map (fun r => jsJoinString (jget r "plain_text"))))
    | _ => .jnull
  | .url => jget x "url"
  | .multi_select =>
    match jget x "multi_select" with
    | .jarr opts => .jarr (opts.map (fun o => jget o "name"))
    | _ => .jnull
  | .checkbox => .jbool (jsTruthy (jget x "checkbox"))
  | .status =>
    if jsTruthy (jget x "status") then jget (jget x "status") "name" else .jnull
  | .rich_text =>
    match jget x "rich_text" with
    | .jarr runs => .jstr (String.join (runs.map (fun r => jsJoinString (jget r "plain_text"))))
    | _ => .jnull
  | .number => jget x "number"
  | _ => .jnull

/-! ## Response simplifier (buildQueryResponse, src/client/query.ts) -/

/-- One raw result row: its `object` tag and, when the `properties` key is
present, the property map in insertion order. -/
structure RawRow where
  object : String
  properties : Option (List (String × JVal))

/-- A simplified row: a JavaScript object from camelized names to extracted
values. -/
abbrev SimpleRow := List (String × JVal)

/-- The per-row body of `buildQueryResponse`: a page without `properties` is
skipped (`ok none`); any other row without `properties` reaches
`Object.entries(result.properties)`, which throws a TypeError; otherwise each
property whose camelized name resolves in the column mapping is extracted
onto the simplified row. -/
def processRow (m : ColMap) (row : RawRow) : Except String (Option SimpleRow) :=
  if row.object = "page" ∧ row.properties.isNone then
    .ok none
  else
    match row.properties with
    | none => .error "TypeError: Object.entries called on undefined properties"
    | some props =>
      .ok (some (props.foldl
        (fun acc p =>
          match lookupCol m (camelize p.1) with
          | some e => jsObjSet acc (camelize p.1) (getResponseValue e.type p.2)
          | none => acc)
        []))

def mapRows (m : ColMap) : List RawRow → Except String (List (Option SimpleRow))
  | [] => .ok []
  | r :: rs => do
    let x ← processRow m r
    let xs ← mapRows m rs
    .ok (x :: xs)

/-- `buildQueryResponse` restricted to the returned `results` array: map each
raw row through the simplifier and drop the skipped (`undefined`) entries.
The schema-drift validation of the first simplified row only writes to the
console and the dedup set and does not affect the returned results. -/
def buildQueryResponse (m : ColMap) (rows : List RawRow) : Except String (List SimpleRow) :=
  (mapRows m rows).map (fun l => l.filterMap id)

/-! ## Filter expressions (QueryFilter, src/db-client/queryTypes.ts)

A filter expression is a JavaScript object: an ordered list of entries whose
keys are either the compound operators `"and"`/`"or"` (holding an array of
sub-filters) or semantic column names (holding a condition object copied
verbatim to the wire).  Custom list constructors keep the mutual recursion
structural. -/

/-- A leaf condition object, e.g. `{equals: "Good"}`: operator names to
operands. -/
inductive Prim where
  | pstr (s : String)
  | pnum (n : Int)
  | pbool (b : Bool)
deriving DecidableEq, Repr

abbrev LeafBody := List (String × Prim)

mutual

inductive QF where
  | nil : QF
  | compoundEntry (key : String) (children : QFList) (rest : QF)
  | leafEntry (key : String) (body : LeafBody) (rest : QF)
deriving DecidableEq, Repr

inductive QFList where
  | lnil : QFList
  | lcons (head : QF) (tail : QFList)
deriving DecidableEq, Repr

end

/-- The value stored under the kind key of a wire leaf: the source copies
`queryFilter[prop]` verbatim, so it can be a condition object or (for a
type-confused input) a compound array. -/
inductive WireBody where
  | ofLeaf (b : LeafBody)
  | ofCompound (fs : QFList)
deriving DecidableEq, Repr

mutual

inductive ApiFilter where
  | single (property : String) (kind : String) (body : WireBody)
  | andF (children : ApiList)
  | orF (children : ApiList)

inductive ApiList where
  | anil : ApiList
  | acons (head : Option ApiFilter) (tail : ApiList)

end

/-! `recursivelyBuildFilter` (src/client/query.ts and
src/db-client/DatabaseClient.ts): iterate the filter object's entries; the
first entry alone determines the result, since both branches of the loop
body return.  An empty object falls through the loop and yields
`undefined` (`none`).  A compound key recurses over every child; any other
key is resolved through the column mapping (a missing name throws a
TypeError on reading `.type` of `undefined`) and the condition is copied
verbatim under the kind key. -/

mutual

def recursivelyBuildFilter (m : ColMap) : QF → Except String (Option ApiFilter)
  | .nil => .ok none
  | .compoundEntry key children _rest =>
    if key = "and" ∨ key = "or" then do
      let cs ← buildFilterList m children
      .ok (some (if key = "and" then .andF cs else .orF cs))
    else
      match lookupCol m key with
      | none => .error "TypeError: cannot read properties of undefined"
      | some e => .ok (some (.single e.columnName (kindKey e.type) (.ofCompound children)))
  | .leafEntry key body _rest =>
    if key = "and" ∨ key = "or" then
      .error "TypeError: compoundFilters.map is not a function"
    else
      match lookupCol m key with
      | none => .error "TypeError: cannot read properties of undefined"
      | some e => .ok (some (.single e.columnName (kindKey e.type) (.ofLeaf body)))

def buildFilterList (m : ColMap) : QFList → Except String ApiList
  | .lnil => .ok .anil
  | .lcons f rest => do
    let x ← recursivelyBuildFilter m f
    let xs ← buildFilterList m rest
    .ok (.acons x xs)

end

/-- Keep only the first entry of a filter object. -/
def firstEntryOnly : QF → QF
  | .nil => .nil
  | .compoundEntry key children _ => .compoundEntry key children .nil
  | .leafEntry key body _ => .leafEntry key body .nil

/-! Leaf-name bookkeeping for the round-trip claim. -/

mutual

/-- The semantic names at the leaf positions of a filter expression, in
iteration order; compound `"and"`/`"or"` keys contribute their children's
leaves. -/
def semLeaves : QF → List String
  | .nil => []
  | .compoundEntry key children rest =>
    (if key = "and" ∨ key = "or" then semLeavesList children else [key]) ++ semLeaves rest
  | .leafEntry key _ rest =>
    (if key = "and" ∨ key = "or" then [] else [key]) ++ semLeaves rest

def semLeavesList : QFList → List String
  | .lnil => []
  | .lcons f rest => semLeaves f ++ semLeavesList rest

end

mutual

/-- The `property` fields of the wire filter's leaves, in order. -/
def wireProps : ApiFilter → List String
  | .single p _ _ => [p]
  | .andF children => wirePropsList children
  | .orF children => wirePropsList children

def wirePropsList : ApiList → List String
  | .anil => []
  | .acons h rest =>
    (match h with
     | some f => wireProps f
     | none => []) ++ wirePropsList rest

end

def wirePropsOpt : Option ApiFilter → List String
  | none => []
  | some f => wireProps f

mutual

/-- A filter object in canonical form: every node carries exactly one entry,
compound entries use a compound key and canonical children, leaf entries use
a non-compound key. -/
def canonicalB : QF → Bool
  | .nil => false
  | .compoundEntry key children .nil =>
    (key == "and" || key == "or") && canonicalListB children
  | .compoundEntry _ _ _ => false
  | .leafEntry key _ .nil => !(key == "and" || key == "or")
  | .leafEntry _ _ _ => false

def canonicalListB : QFList → Bool
  | .lnil => true
  | .lcons f rest => canonicalB f && canonicalListB rest

end

/-! ## The query call (DatabaseClient.query, src/db-client/DatabaseClient.ts) -/

/-- The outgoing wire request; absent keys are `none`. -/
structure QueryCall where
  data_source_id : String
  sorts : Option (List String) := none
  filter : Option ApiFilter := none

/-- `query`: a present filter object (even an empty one) is compiled; the
`sorts` key is attached only when the compiled filter is defined, in which
case an absent sort spec defaults to `[]`. -/
def queryBuildCall (m : ColMap) (id : String) (filter? : Option QF)
    (sort? : Option (List String)) : Except String QueryCall := do
  let filters ← match filter? with
    | some f => recursivelyBuildFilter m f
    | none => pure (none : Option ApiFilter)
  match filters with
  | some flt =>
    .ok { data_source_id := id, sorts := some (sort?.getD []), filter := some flt }
  | none => .ok { data_source_id := id }

/-! ## Schema drift validator (validateDatabaseSchema,
src/db-client/DatabaseClient.ts)

The validator is stateful per client instance: `loggedSchemaValidationIssues`
is a set of already-reported issue signatures (modelled as a list of the
strings inserted so far).  Three independent checks each emit a warning only
when their signature is new.  The Zod `safeParse` of the generated schema is
modelled by a caller-supplied function returning the issue list (empty means
success); `JSON.stringify` of an issue payload is modelled by an injective
string encoding. -/

inductive DriftWarning where
  | missing (props : List String)
  | unexpected (prop : String)
  | zod (issues : List String)
deriving DecidableEq, Repr

def rowKeys (row : SimpleRow) : List String := row.map Prod.fst

/-- The set of expected camelized names absent from the simplified row, in
mapping order. -/
def missingProperties (m : ColMap) (row : SimpleRow) : List String :=
  (m.map Prod.fst).filter (fun k => !(rowKeys row).contains k)

/-- Deduplication performed by `new Set(Object.keys(result))`: first
occurrences in insertion order. -/
def dedupKeys : List String → List String
  | [] => []
  | k :: rest => k :: (dedupKeys rest).filter (fun x => x ≠ k)

/-- The row's own keys (deduplicated, insertion order, as `new Set` iterates)
that do not resolve in the column mapping. -/
def unexpectedProperties (m : ColMap) (row : SimpleRow) : List String :=
  (dedupKeys (rowKeys row)).filter (fun k => (lookupCol m k).isNone)

/-- Models `JSON.stringify({type: "missing_properties", properties: ...})`. -/
def missingSig (props : List String) : String :=
  "missing_properties:" ++ String.intercalate "," props

/-- Models `JSON.stringify({type: "unexpected_property", property: ...})`. -/
def unexpectedSig (prop : String) : String :=
  "unexpected_property:" ++ prop

/-- Models `JSON.stringify(parseResult.error.issues.map(...))`. -/
def zodSig (issues : List String) : String :=
  "zod_issues:" ++ String.intercalate "," issues

/-- The missing-properties stage. -/
def driftMissingStage (m : ColMap) (logged : List String) (row : SimpleRow) :
    List String × List DriftWarning :=
  if (missingProperties m row).isEmpty then (logged, [])
  else if logged.contains (missingSig (missingProperties m row)) then (logged, [])
  else (missingSig (missingProperties m row) :: logged,
    [.missing (missingProperties m row)])

/-- The loop body of the unexpected-property check, one iteration per
offending key. -/
def driftUnexpectedGo (acc : List String × List DriftWarning) :
    List String → List String × List DriftWarning
  | [] => acc
  | k :: rest =>
    if acc.1.contains (unexpectedSig k) then driftUnexpectedGo acc rest
    else driftUnexpectedGo (unexpectedSig k :: acc.1, acc.2 ++ [.unexpected k]) rest

/-- The unexpected-property stage: one signature per offending key. -/
def driftUnexpectedStage (m : ColMap) (logged : List String) (row : SimpleRow) :
    List String × List DriftWarning :=
  driftUnexpectedGo (logged, []) (unexpectedProperties m row)

/-- The Zod validation stage. -/
def driftZodStage (parse : SimpleRow → List String) (logged : List String)
    (row : SimpleRow) : List String × List DriftWarning :=
  if (parse row).isEmpty then (logged, [])
  else if logged.contains (zodSig (parse row)) then (logged, [])
  else (zodSig (parse row) :: logged, [.zod (parse row)])

/-- `validateDatabaseSchema`: when a schema is configured, run the three
stages in order against one simplified row, threading the dedup set and
collecting the emitted warnings. -/
def validateDatabaseSchema (schema? : Option (SimpleRow → List String))
    (m : ColMap) (logged : List String) (row : SimpleRow) :
    List String × List DriftWarning :=
  match schema? with
  | none => (logged, [])
  | some parse =>
    let s1 := driftMissingStage m logged row
    let s2 := driftUnexpectedStage m s1.1 row
    let s3 := driftZodStage parse s2.1 row
    (s3.1, s1.2 ++ s2.2 ++ s3.2)

def isMissingWarning : DriftWarning → Bool
  | .missing _ => true
  | _ => false

def isUnexpectedWarning : DriftWarning → Bool
  | .unexpected _ => true
  | _ => false

/-! ## Zod schema generation (src/ast/zod-schema.ts)

`ZodExpr` mirrors the call expression built by `createZodPropertyExpression`:
a primitive call `z.<method>()`, an enum over a generated constant array, an
array, the fixed date object shape, and the `.nullable()` / `.optional()`
wrappers applied in that order by `applyOptionalNullable`. -/

inductive ZodExpr where
  | prim (method : String)
  | enumOf (identifier : String)
  | arrayOf (inner : ZodExpr)
  | objectOf (fields : List (String × ZodExpr))
  | nullable (inner : ZodExpr)
  | optionalWrap (inner : ZodExpr)

def createZodPrimitiveCall (method : String) : ZodExpr := .prim method

/-- `applyOptionalNullable`: wrap with `.nullable()` first, then
`.optional()`. -/
def applyOptionalNullable (expression : ZodExpr) (optional nullable : Bool) : ZodExpr :=
  let e := if nullable then .nullable expression else expression
  if optional then .optionalWrap e else e

/-- The fields of `ZodMetadata` consumed by `createZodPropertyExpression`. -/
structure ZodMetadataL where
  type : DatabasePropertyType
  isRequired : Bool
  options : List String := []
  propertyValuesIdentifier : Option String := none

/-- `createZodEnumExpression`: an enum over the generated constant array when
options and an identifier are present, else a bare string. -/
def createZodEnumExpression (column : ZodMetadataL) : ZodExpr :=
  match column.propertyValuesIdentifier with
  | some ident =>
    if column.options.length > 0 then .enumOf ident else createZodPrimitiveCall "string"
  | none => createZodPrimitiveCall "string"

/-- `createZodDateExpression`: the fixed `{start, end}` object shape, made
nullable and optionally optional. -/
def createZodDateExpression (optional : Bool) : ZodExpr :=
  applyOptionalNullable
    (.objectOf
      [("start", createZodPrimitiveCall "string"),
       ("end", applyOptionalNullable (createZodPrimitiveCall "string") true true)])
    optional true

/-- `createZodPropertyExpression`: the validator expression for one column.
The default branch covers `unique_id` and any unsupported kind. -/
def createZodPropertyExpression (column : ZodMetadataL) : ZodExpr :=
  let optional := !column.isRequired
  match column.type with
  | .title => createZodPrimitiveCall "string"
  | .rich_text => applyOptionalNullable (createZodPrimitiveCall "string") optional true
  | .email => applyOptionalNullable (createZodPrimitiveCall "string") optional true
  | .phone_number => applyOptionalNullable (createZodPrimitiveCall "string") optional true
  | .url => applyOptionalNullable (createZodPrimitiveCall "string") optional true
  | .number => applyOptionalNullable (createZodPrimitiveCall "number") optional true
  | .checkbox => applyOptionalNullable (createZodPrimitiveCall "boolean") optional false
  | .date => createZodDateExpression optional
  | .select => applyOptionalNullable (createZodEnumExpression column) optional true
  | .status => applyOptionalNullable (createZodEnumExpression column) optional true
  | .multi_select => applyOptionalNullable (.arrayOf (createZodEnumExpression column)) optional true
  | _ => applyOptionalNullable (createZodPrimitiveCall "unknown") true true

/-- Whether the validator expression accepts an absent value: the outermost
wrapper is `.optional()`. -/
def ZodExpr.isOptionalExpr : ZodExpr → Bool
  | .optionalWrap _ => true
  | _ => false

def ZodExpr.stripOptionalWrap : ZodExpr → ZodExpr
  | .optionalWrap e => e
  | e => e

/-- Whether the validator expression accepts `null`: a `.nullable()` wrapper
sits directly under the optional wrapper (if any). -/
def ZodExpr.isNullableExpr (e : ZodExpr) : Bool :=
  match e.stripOptionalWrap with
  | .nullable _ => true
  | _ => false

/-! ## Property AST generators
(propertyASTGenerators, src/ast/database/generate-databases-cli.ts with the
builders of src/ast/shared/ast-builders.ts)

Each generator produces a type-signature element and the Zod metadata.  For
the claims only three facts of the result matter: whether the generated
property signature carries a question token (`createTextProperty` adds one
exactly when `isTitle` is false; the number, date, checkbox and multi-option
builders always add one), the `isRequired` flag passed to the Zod metadata,
and whether an enum constant statement is produced.  `propertyASTGenerators`
has an entry only for supported kinds, so unsupported kinds yield `none`. -/

structure PropertyASTResultL where
  tsOptional : Bool
  zodIsRequired : Bool
  hasEnumConst : Bool
deriving DecidableEq, Repr

def propertyASTGenerators (k : DatabasePropertyType) : Option PropertyASTResultL :=
  match k with
  | .title => some { tsOptional := false, zodIsRequired := true, hasEnumConst := false }
  | .rich_text => some { tsOptional := true, zodIsRequired := false, hasEnumConst := false }
  | .email => some { tsOptional := true, zodIsRequired := false, hasEnumConst := false }
  | .phone_number => some { tsOptional := true, zodIsRequired := false, hasEnumConst := false }
  | .url => some { tsOptional := true, zodIsRequired := false, hasEnumConst := false }
  | .number => some { tsOptional := true, zodIsRequired := false, hasEnumConst := false }
  | .date => some { tsOptional := true, zodIsRequired := false, hasEnumConst := false }
  | .checkbox => some { tsOptional := true, zodIsRequired := false, hasEnumConst := false }
  | .select => some { tsOptional := true, zodIsRequired := false, hasEnumConst := true }
  | .status => some { tsOptional := true, zodIsRequired := false, hasEnumConst := true }
  | .multi_select => some { tsOptional := true, zodIsRequired := false, hasEnumConst := true }
  | .unique_id => some { tsOptional := true, zodIsRequired := false, hasEnumConst := false }
  | _ => none

/-- The Zod metadata assembled for one column by
`createTypescriptFileForDatabase` from the generator's result. -/
def zodMetadataForKind (k : DatabasePropertyType) (options : List String)
    (ident : Option String) : Option ZodMetadataL :=
  (propertyASTGenerators k).map
    (fun r =>
      { type := k, isRequired := r.zodIsRequired, options := options,
        propertyValuesIdentifier := ident })

/-- Optionality of the generated type signature for a kind. -/
def generatedTypeOptional (k : DatabasePropertyType) : Option Bool :=
  (propertyASTGenerators k).map (fun r => r.tsOptional)

/-- Optionality of the generated validator for a kind. -/
def generatedValidatorOptional (k : DatabasePropertyType) (options : List String)
    (ident : Option String) : Option Bool :=
  (zodMetadataForKind k options ident).map
    (fun meta => (createZodPropertyExpression meta).isOptionalExpr)

/-- Nullability of the generated validator for a kind. -/
def generatedValidatorNullable (k : DatabasePropertyType) (options : List String)
    (ident : Option String) : Option Bool :=
  (zodMetadataForKind k options ident).map
    (fun meta => (createZodPropertyExpression meta).isNullableExpr)

/-! ## Config AST patcher (writeConfigFileWithAST, src/cli/helpers.ts)

The patcher parses the config source with Babel, walks the tree for the
three recognized declaration shapes, and inside each found object literal
looks for the first `databases` array property.  The parse step is external;
the embedding takes the parsed tree alongside the original file content and
models the modify-and-write logic.  Array elements other than string
literals (and expression statements wrapping one) contribute nothing to the
existing-id list. -/

inductive CfgElem where
  | strLit (s : String)
  | exprStmtStr (s : String)
  | otherElem
deriving DecidableEq, Repr

inductive CfgValue where
  | arrayV (elems : List CfgElem)
  | otherV
deriving DecidableEq, Repr

structure CfgProp where
  key : String
  value : CfgValue
deriving DecidableEq, Repr

abbrev CfgObj := List CfgProp

/-- The three recognized declaration shapes (after unwrapping a `satisfies`
expression), plus anything else in the file. -/
inductive CfgDecl where
  | varDecl (name : String) (obj : CfgObj)
  | moduleExports (obj : CfgObj)
  | exportDefault (obj : CfgObj)
  | otherDecl
deriving DecidableEq, Repr

abbrev CfgProgram := List CfgDecl

/-- The element filter and map of `modifyDatabaseIdsInObject`: string
literals and expression statements wrapping one yield their value. -/
def extractElemId : CfgElem → Option String
  | .strLit s => some s
  | .exprStmtStr s => some s
  | .otherElem => none

def existingIdsOf (elems : List CfgElem) : List String :=
  elems.filterMap extractElemId

def isArrayValue : CfgValue → Bool
  | .arrayV _ => true
  | .otherV => false

def arrayElems : CfgValue → List CfgElem
  | .arrayV elems => elems
  | .otherV => []

/-- `modifyDatabaseIdsInObject`: scan the properties for the first
`databases` array; when the new id is absent append it as a string literal
and report a modification, otherwise leave everything untouched; the loop
breaks after the first match either way. -/
def modifyDatabaseIdsInObject (newDatabaseId : String) : CfgObj → Bool × CfgObj
  | [] => (false, [])
  | p :: rest =>
    if p.key = "databases" ∧ isArrayValue p.value then
      if (existingIdsOf (arrayElems p.value)).contains newDatabaseId then
        (false, p :: rest)
      else
        (true, { p with value := .arrayV (arrayElems p.value ++ [.strLit newDatabaseId]) } :: rest)
    else
      let r := modifyDatabaseIdsInObject newDatabaseId rest
      (r.1, p :: r.2)

/-- `visitNode` restricted to one top-level declaration: the three recognized
shapes patch their object literal. -/
def modifyDecl (newDatabaseId : String) : CfgDecl → Bool × CfgDecl
  | .varDecl n obj =>
    let r := modifyDatabaseIdsInObject newDatabaseId obj
    (r.1, .varDecl n r.2)
  | .moduleExports obj =>
    let r := modifyDatabaseIdsInObject newDatabaseId obj
    (r.1, .moduleExports r.2)
  | .exportDefault obj =>
    let r := modifyDatabaseIdsInObject newDatabaseId obj
    (r.1, .exportDefault r.2)
  | .otherDecl => (false, .otherDecl)

/-- The traversal over the whole program: every declaration is visited, the
`modified` flags are combined. -/
def traverseModify (newDatabaseId : String) : CfgProgram → Bool × CfgProgram
  | [] => (false, [])
  | d :: ds =>
    let r := modifyDecl newDatabaseId d
    let rs := traverseModify newDatabaseId ds
    (r.1 || rs.1, r.2 :: rs.2)

def renderElem : CfgElem → String
  | .strLit s => "\x22" ++ s ++ "\x22"
  | .exprStmtStr s => "\x22" ++ s ++ "\x22;"
  | .otherElem => "<expr>"

def renderProp (p : CfgProp) : String :=
  match p.value with
  | .arrayV elems => p.key ++ ": [" ++ String.intercalate ", " (elems.map renderElem) ++ "]"
  | .otherV => p.key ++ ": <expr>"

def renderObj (obj : CfgObj) : String :=
  "\x7b " ++ String.intercalate ", " (obj.map renderProp) ++ " \x7d"

def renderDecl : CfgDecl → String
  | .varDecl n obj => "const " ++ n ++ " = " ++ renderObj obj ++ ";"
  | .moduleExports obj => "module.exports = " ++ renderObj obj ++ ";"
  | .exportDefault obj => "export default " ++ renderObj obj ++ ";"
  | .otherDecl => "<stmt>"

def renderProgram (prog : CfgProgram) : String :=
  String.intercalate "\n" (prog.map renderDecl)

/-- The outcome of `writeConfigFileWithAST`: the boolean it returns and the
config file's content after the call. -/
structure PatchOutcome where
  returned : Bool
  fileContent : String
deriving DecidableEq, Repr

/-- `writeConfigFileWithAST` on a successfully parsed config source: traverse
and patch the tree; only when a modification happened is the regenerated
source written back, otherwise the file is left untouched. -/
def writeConfigFileWithAST (originalContent : String) (parsed : CfgProgram)
    (newDatabaseId : String) : PatchOutcome :=
  let r := traverseModify newDatabaseId parsed
  if r.1 then { returned := true, fileContent := renderProgram r.2 }
  else { returned := false, fileContent := originalContent }

/-- The first `databases` array property of an object, mirroring the break
in `modifyDatabaseIdsInObject`. -/
def firstDatabasesArray : CfgObj → Option (List CfgElem)
  | [] => none
  | p :: rest =>
    if p.key = "databases" ∧ isArrayValue p.value then some (arrayElems p.value)
    else firstDatabasesArray rest

def declObj : CfgDecl → Option CfgObj
  | .varDecl _ obj => some obj
  | .moduleExports obj => some obj
  | .exportDefault obj => some obj
  | .otherDecl => none

/-- The object's first databases array (the only one the patcher touches)
already holds the identifier, or the object has no databases array. -/
def objHoldsId (newDatabaseId : String) (obj : CfgObj) : Bool :=
  match firstDatabasesArray obj with
  | none => true
  | some elems => (existingIdsOf elems).contains newDatabaseId

/-- One declaration already holds the identifier (or holds no databases
array at all, in which case the patcher leaves it alone). -/
def declHoldsId (newDatabaseId : String) (d : CfgDecl) : Bool :=
  match declObj d with
  | none => true
  | some obj => objHoldsId newDatabaseId obj

/-! ## Generation batch loop (createDatabaseTypes,
src/ast/database/generate-databases-cli.ts)

`fetch` models `generateDatabaseTypes` for one identifier: the remote schema
retrieval plus writing the generated files, returning the display name or
failing.  The loop appends each successful name; the catch block returns
`{databaseNames: []}` immediately, so the post-loop metadata write, barrel
file and index update (summarised by `completed`) are skipped. -/

structure GenResult where
  databaseNames : List String
  attempted : List String
  completed : Bool
deriving DecidableEq, Repr

def generationLoopGo (fetch : String → Except String String) :
    List String → List String → List String → GenResult
  | [], names, att => { databaseNames := names, attempted := att, completed := true }
  | id :: rest, names, att =>
    match fetch id with
    | .ok displayName => generationLoopGo fetch rest (names ++ [displayName]) (att ++ [id])
    | .error _ => { databaseNames := [], attempted := att ++ [id], completed := false }

def generationLoop (fetch : String → Except String String) (targetIds : List String) : GenResult :=
  generationLoopGo fetch targetIds [] []

/-! ## Startup guards of the two createDatabaseTypes implementations -/

inductive RunStart where
  | exited (msg : String)
  | proceeding
deriving DecidableEq, Repr

/-- JavaScript falsiness of the `auth` credential. -/
def authFalsy : Option String → Bool
  | none => true
  | some a => a = ""

/-- The argument checks at the top of `createDatabaseTypes` in
src/type-generation.ts: note the identifier-list guard compares
`databaseIds.length < 0`. -/
def createDatabaseTypesStartLegacy (auth : Option String) (databaseIds : List String) : RunStart :=
  if authFalsy auth then .exited "Please pass a valid Notion Integration Key"
  else if databaseIds.length < 0 then .exited "Please pass some database Ids"
  else .proceeding

/-- The argument checks at the top of `createDatabaseTypes` in
src/ast/database/generate-databases-cli.ts, which compare
`targetIds.length === 0`. -/
def createDatabaseTypesStartCli (auth : Option String) (targetIds : List String) : RunStart :=
  if authFalsy auth then .exited "Integration key not found"
  else if targetIds.length = 0 then .exited "Please pass some database Ids"
  else .proceeding

/-! ## Concrete instances used by counterexamples and witnesses -/

def exceptIsOk {ε α : Type} : Except ε α → Bool
  | .ok _ => true
  | .error _ => false

/-- A fetch behaviour that fails on identifier `"b"` and succeeds on every
other identifier. -/
def fetchFailsOnB : String → Except String String :=
  fun id => if id = "b" then .error "fetch failed" else .ok (id ++ "Db")

/-- The column mapping the generator builds for a two-column schema
`Rating: select`, `Price: number`. -/
def ratingPriceMap : ColMap :=
  buildColumnMap [("Rating", .select), ("Price", .number)]

/-- A single filter node with two leaf keys, `rating` and `price`. -/
def twoLeafFilter : QF :=
  .leafEntry "rating" [("equals", .pstr "Good")]
    (.leafEntry "price" [("less_than", .pnum 10)] .nil)

/-- A canonical compound filter over the same mapping. -/
def canonicalAndFilter : QF :=
  .compoundEntry "and"
    (.lcons (.leafEntry "rating" [("equals", .pstr "Good")] .nil)
      (.lcons (.leafEntry "price" [("less_than", .pnum 10)] .nil) .lnil))
    .nil

/-- A one-column mapping as generated for a schema with a single select
column named `Book Rating`. -/
def bookRatingMap : ColMap := [("bookRating", ⟨"Book Rating", .select⟩)]

/-- A parsed config with the recognized `const X = {...}` shape whose
databases array already holds `"a"`. -/
def configWithA : CfgProgram :=
  [.varDecl "NotionConfig"
    [{ key := "auth", value := .otherV },
     { key := "databases", value := .arrayV [.strLit "a"] }]]

/-! # Theorems -/

/-- C3: the filter compiler derives its wire filter from only the first key
of a filter object; any further top-level keys contribute nothing to the
output and raise no error, since the result (wire filter or thrown error)
equals that for the object truncated to its first entry. -/
theorem filter_compiler_first_key_only (m : ColMap) (f : QF) :
    recursivelyBuildFilter m f = recursivelyBuildFilter m (firstEntryOnly f) := by
  cases f <;> rfl

/-- C8: with a valid credential and an empty identifier list, the
`createDatabaseTypes` of src/type-generation.ts proceeds (its guard is
`databaseIds.length < 0`, which never holds), while the corresponding guard
in src/ast/database/generate-databases-cli.ts exits with a message as the
claim states. -/
theorem empty_id_list_guard_evaluation :
    createDatabaseTypesStartLegacy (some "secret-key") [] = RunStart.proceeding ∧
    (∀ ids : List String,
      createDatabaseTypesStartLegacy (some "secret-key") ids = RunStart.proceeding) ∧
    createDatabaseTypesStartCli (some "secret-key") [] =
      RunStart.exited "Please pass some database Ids" := by
  refine ⟨rfl, ?_, rfl⟩
  intro ids
  unfold createDatabaseTypesStartLegacy
  rw [if_neg (by simp [authFalsy]), if_neg (by simp)]

/-- C10: when the query carries a sort spec but no filter, or a filter
object that compiles to `undefined` (the empty object), the outgoing request
contains neither a filter nor the sorts. -/
theorem query_sorts_only_with_filter (m : ColMap) (id : String) (s : List String)
    (filter? : Option QF) (h : filter? = none ∨ filter? = some QF.nil) :
    queryBuildCall m id filter? (some s) =
      .ok { data_source_id := id, sorts := none, filter := none } := by
  rcases h with h | h <;> subst h <;> rfl

theorem query_sorts_only_with_filter_witness :
    queryBuildCall [] "db1" none (some ["created_time"]) =
      .ok { data_source_id := "db1", sorts := none, filter := none } :=
  query_sorts_only_with_filter [] "db1" ["created_time"] none (Or.inl rfl)

/-- C1 counterexample: with identifiers `a`, `b`, `c` where fetching `b`
fails, the batch returns the empty name list (not the reduced list
containing the name generated for `a`) and never attempts `c`. -/
theorem generation_abort_counterexample :
    (generationLoop fetchFailsOnB ["a", "b", "c"]).databaseNames = [] ∧
    (generationLoop fetchFailsOnB ["a", "b", "c"]).attempted = ["a", "b"] := by
  exact ⟨rfl, rfl⟩

theorem generationLoopGo_abort (fetch : String → Except String String)
    (bad : String) (post : List String) (hbad : exceptIsOk (fetch bad) = false) :
    ∀ (pre : List String), pre.all (fun id => exceptIsOk (fetch id)) = true →
      ∀ names att, generationLoopGo fetch (pre ++ bad :: post) names att =
        { databaseNames := [], attempted := att ++ pre ++ [bad], completed := false } := by
  intro pre
  induction pre with
  | nil =>
    intro _ names att
    simp only [List.nil_append, generationLoopGo]
    cases hf : fetch bad with
    | ok v => rw [hf] at hbad; simp [exceptIsOk] at hbad
    | error e => simp
  | cons a rest ih =>
    intro hall names att
    simp only [List.all_cons, Bool.and_eq_true] at hall
    cases hf : fetch a with
    | error e => rw [hf] at hall; simp [exceptIsOk] at hall
    | ok v =>
      simp only [List.cons_append, generationLoopGo, hf, List.append_eq]
      rw [ih hall.2 (names ++ [v]) (att ++ [a])]
      simp

/-- C1 amended: a fetch or disk failure while generating one entity aborts
the whole batch: the loop stops at the failing entity (later identifiers are
never attempted), the post-loop steps are skipped, and the caller receives an
empty name list rather than the reduced list of successes. -/
theorem generation_failure_aborts_batch (fetch : String → Except String String)
    (pre : List String) (bad : String) (post : List String)
    (hpre : pre.all (fun id => exceptIsOk (fetch id)) = true)
    (hbad : exceptIsOk (fetch bad) = false) :
    generationLoop fetch (pre ++ bad :: post) =
      { databaseNames := [], attempted := pre ++ [bad], completed := false } := by
  unfold generationLoop
  rw [generationLoopGo_abort fetch bad post hbad pre hpre [] []]
  simp

theorem generation_failure_aborts_batch_witness :
    generationLoop fetchFailsOnB (["a"] ++ "b" :: ["c"]) =
      { databaseNames := [], attempted := ["a", "b"], completed := false } :=
  generation_failure_aborts_batch fetchFailsOnB ["a"] "b" ["c"] (by decide) (by decide)

/-- C5 counterexample: a raw row without the `properties` key whose object
tag is not `"page"` is not skipped; the simplifier reaches
`Object.entries(result.properties)` and throws instead of omitting the row. -/
theorem simplifier_nonpage_without_properties_throws :
    processRow [] { object := "database", properties := none } =
      .error "TypeError: Object.entries called on undefined properties" := by
  rfl

/-- C5 amended: a raw row with object tag `"page"` that lacks the
`properties` key is omitted from the results array without throwing; rows
lacking `properties` under any other object tag are not covered by the skip
guard (they make the simplifier throw, see the counterexample). -/
theorem page_without_properties_skipped (m : ColMap) (row : RawRow)
    (rest : List RawRow) (hobj : row.object = "page")
    (hprops : row.properties = none) :
    processRow m row = .ok none ∧
    buildQueryResponse m (row :: rest) = buildQueryResponse m rest := by
  have hskip : processRow m row = .ok none := by
    unfold processRow
    rw [if_pos ⟨hobj, by rw [hprops]; rfl⟩]
  refine ⟨hskip, ?_⟩
  unfold buildQueryResponse
  have h1 : mapRows m (row :: rest) =
      Except.bind (processRow m row) (fun x =>
        Except.bind (mapRows m rest) (fun xs => Except.ok (x :: xs))) := rfl
  rw [h1, hskip]
  cases mapRows m rest <;> simp [Except.bind, Except.map, List.filterMap_cons]

theorem page_without_properties_skipped_witness :
    processRow [] { object := "page", properties := none } = .ok none ∧
    buildQueryResponse [] [{ object := "page", properties := none }] =
      buildQueryResponse [] [] :=
  page_without_properties_skipped [] { object := "page", properties := none } [] rfl rfl

/-- C2 counterexample: for the checkbox kind the generated type signature is
optional but the generated validator expression is not nullable, contrary to
the claimed rule that every non-title kind is nullable in the validator. -/
theorem checkbox_validator_not_nullable :
    generatedTypeOptional .checkbox = some true ∧
    generatedValidatorNullable .checkbox [] none = some false := by
  exact ⟨rfl, rfl⟩

/-- C2 amended: for every supported kind the generated type signature and the
generated validator agree on optionality (non-optional exactly for title),
and the validator is nullable for every supported kind except title and
checkbox; checkbox is optional but not nullable. -/
theorem mapper_optionality_table (k : DatabasePropertyType) (options : List String)
    (ident : Option String) (h : isSupportedPropertyType k = true) :
    generatedTypeOptional k = some (if k = .title then false else true) ∧
    generatedValidatorOptional k options ident = some (if k = .title then false else true) ∧
    generatedValidatorNullable k options ident =
      some (if k = .title ∨ k = .checkbox then false else true) := by
  cases k <;> first
    | exact ⟨rfl, rfl, rfl⟩
    | exact absurd h (by decide)

theorem mapper_optionality_table_witness :
    isSupportedPropertyType DatabasePropertyType.select = true ∧
    (generatedTypeOptional DatabasePropertyType.select =
        some (if DatabasePropertyType.select = .title then false else true) ∧
      generatedValidatorOptional DatabasePropertyType.select ["Good", "Bad"]
          (some "BookRatingPropertyValues") =
        some (if DatabasePropertyType.select = .title then false else true) ∧
      generatedValidatorNullable DatabasePropertyType.select ["Good", "Bad"]
          (some "BookRatingPropertyValues") =
        some (if DatabasePropertyType.select = .title ∨
            DatabasePropertyType.select = .checkbox then false else true)) :=
  ⟨rfl, mapper_optionality_table DatabasePropertyType.select ["Good", "Bad"]
    (some "BookRatingPropertyValues") rfl⟩

theorem modifyDatabaseIdsInObject_noop (newId : String) :
    ∀ obj : CfgObj, objHoldsId newId obj = true →
      modifyDatabaseIdsInObject newId obj = (false, obj) := by
  intro obj
  induction obj with
  | nil => intro _; rfl
  | cons p rest ih =>
    intro h
    rw [objHoldsId, firstDatabasesArray] at h
    rw [modifyDatabaseIdsInObject]
    by_cases hc : p.key = "databases" ∧ isArrayValue p.value
    · rw [if_pos hc] at h ⊢
      have h2 : (existingIdsOf (arrayElems p.value)).contains newId = true := h
      have h3 : newId ∈ existingIdsOf (arrayElems p.value) :=
        List.mem_of_elem_eq_true h2
      simp [h3]
    · rw [if_neg hc] at h ⊢
      have h' : objHoldsId newId rest = true := h
      rw [ih h']

theorem modifyDecl_noop (newId : String) (d : CfgDecl)
    (h : declHoldsId newId d = true) : modifyDecl newId d = (false, d) := by
  cases d with
  | varDecl n obj =>
    have h' : objHoldsId newId obj = true := h
    simp only [modifyDecl]
    rw [modifyDatabaseIdsInObject_noop newId obj h']
  | moduleExports obj =>
    have h' : objHoldsId newId obj = true := h
    simp only [modifyDecl]
    rw [modifyDatabaseIdsInObject_noop newId obj h']
  | exportDefault obj =>
    have h' : objHoldsId newId obj = true := h
    simp only [modifyDecl]
    rw [modifyDatabaseIdsInObject_noop newId obj h']
  | otherDecl => rfl

theorem traverseModify_noop (newId : String) :
    ∀ prog : CfgProgram, prog.all (declHoldsId newId) = true →
      traverseModify newId prog = (false, prog) := by
  intro prog
  induction prog with
  | nil => intro _; rfl
  | cons d ds ih =>
    intro h
    simp only [List.all_cons, Bool.and_eq_true] at h
    unfold traverseModify
    rw [modifyDecl_noop newId d h.1, ih h.2]
    rfl

/-- C7: when the parsed config's recognized declaration shapes all already
hold the identifier in their databases array (or hold no such array), the
patcher reports no modification and never writes, so the config file's
content is byte-identical to what it was before the call. -/
theorem config_patcher_noop_when_id_present (originalContent : String)
    (parsed : CfgProgram) (newDatabaseId : String)
    (h : parsed.all (declHoldsId newDatabaseId) = true) :
    writeConfigFileWithAST originalContent parsed newDatabaseId =
      { returned := false, fileContent := originalContent } := by
  unfold writeConfigFileWithAST
  rw [traverseModify_noop newDatabaseId parsed h]
  rfl

theorem config_patcher_noop_when_id_present_witness :
    writeConfigFileWithAST "const NotionConfig = \x7b auth, databases: [\x22a\x22] \x7d;"
        configWithA "a" =
      { returned := false,
        fileContent := "const NotionConfig = \x7b auth, databases: [\x22a\x22] \x7d;" } :=
  config_patcher_noop_when_id_present
    "const NotionConfig = \x7b auth, databases: [\x22a\x22] \x7d;" configWithA "a" (by decide)

/-! Helper lemmas about the drift validator's stages. -/

theorem driftUnexpectedGo_mem (a : String) :
    ∀ (l : List String) (acc : List String × List DriftWarning),
      a ∈ acc.1 → a ∈ (driftUnexpectedGo acc l).1 := by
  intro l
  induction l with
  | nil => intro acc h; exact h
  | cons k rest ih =>
    intro acc h
    rw [driftUnexpectedGo]
    by_cases hc : acc.1.contains (unexpectedSig k)
    · rw [if_pos hc]; exact ih acc h
    · rw [if_neg hc]
      exact ih _ (List.mem_cons_of_mem _ h)

theorem driftUnexpectedGo_filter (p : DriftWarning → Bool)
    (hp : ∀ k, p (DriftWarning.unexpected k) = false) :
    ∀ (l : List String) (acc : List String × List DriftWarning),
      ((driftUnexpectedGo acc l).2).filter p = acc.2.filter p := by
  intro l
  induction l with
  | nil => intro acc; rfl
  | cons k rest ih =>
    intro acc
    rw [driftUnexpectedGo]
    by_cases hc : acc.1.contains (unexpectedSig k)
    · rw [if_pos hc]; exact ih acc
    · rw [if_neg hc]
      rw [ih]
      simp [List.filter_append, hp k]

theorem driftUnexpectedStage_mem (m : ColMap) (row : SimpleRow) (a : String)
    (logged : List String) (h : a ∈ logged) :
    a ∈ (driftUnexpectedStage m logged row).1 :=
  driftUnexpectedGo_mem a _ (logged, []) h

theorem driftUnexpectedStage_filter (m : ColMap) (logged : List String)
    (row : SimpleRow) (p : DriftWarning → Bool)
    (hp : ∀ k, p (DriftWarning.unexpected k) = false) :
    ((driftUnexpectedStage m logged row).2).filter p = [] := by
  unfold driftUnexpectedStage
  rw [driftUnexpectedGo_filter p hp]
  rfl

theorem driftZodStage_mem (parse : SimpleRow → List String) (row : SimpleRow)
    (a : String) (logged : List String) (h : a ∈ logged) :
    a ∈ (driftZodStage parse logged row).1 := by
  unfold driftZodStage
  split
  · exact h
  · split
    · exact h
    · exact List.mem_cons_of_mem _ h

theorem driftMissingStage_filter (m : ColMap) (row : SimpleRow)
    (logged : List String) (p : DriftWarning → Bool)
    (hp : ∀ ps, p (DriftWarning.missing ps) = false) :
    ((driftMissingStage m logged row).2).filter p = [] := by
  unfold driftMissingStage
  split
  · rfl
  · split
    · rfl
    · simp [hp]

theorem driftZodStage_filter (parse : SimpleRow → List String) (row : SimpleRow)
    (logged : List String) (p : DriftWarning → Bool)
    (hp : ∀ issues, p (DriftWarning.zod issues) = false) :
    ((driftZodStage parse logged row).2).filter p = [] := by
  unfold driftZodStage
  split
  · rfl
  · split
    · rfl
    · simp [hp]

theorem driftMissingStage_fresh (m : ColMap) (row : SimpleRow) (logged : List String)
    (hmiss : missingProperties m row ≠ [])
    (hsig : ¬ missingSig (missingProperties m row) ∈ logged) :
    driftMissingStage m logged row =
      (missingSig (missingProperties m row) :: logged,
       [DriftWarning.missing (missingProperties m row)]) := by
  unfold driftMissingStage
  rw [if_neg (by simpa [List.isEmpty_iff] using hmiss)]
  rw [if_neg (by simpa using hsig)]

theorem driftMissingStage_seen (m : ColMap) (row : SimpleRow) (logged : List String)
    (hsig : missingSig (missingProperties m row) ∈ logged) :
    driftMissingStage m logged row = (logged, []) := by
  unfold driftMissingStage
  split
  · rfl
  · rw [if_pos (by simpa using hsig)]

theorem validateDatabaseSchema_eq (parse : SimpleRow → List String) (m : ColMap)
    (logged : List String) (row : SimpleRow) :
    validateDatabaseSchema (some parse) m logged row =
      ((driftZodStage parse
          (driftUnexpectedStage m (driftMissingStage m logged row).1 row).1 row).1,
       (driftMissingStage m logged row).2 ++
         (driftUnexpectedStage m (driftMissingStage m logged row).1 row).2 ++
         (driftZodStage parse
           (driftUnexpectedStage m (driftMissingStage m logged row).1 row).1 row).2) :=
  rfl

theorem validate_missing_filter_fresh (parse : SimpleRow → List String)
    (m : ColMap) (row : SimpleRow) (logged : List String)
    (hmiss : missingProperties m row ≠ [])
    (hsig : ¬ missingSig (missingProperties m row) ∈ logged) :
    (validateDatabaseSchema (some parse) m logged row).2.filter isMissingWarning =
      [DriftWarning.missing (missingProperties m row)] := by
  rw [validateDatabaseSchema_eq, driftMissingStage_fresh m row logged hmiss hsig]
  simp [List.filter_append, isMissingWarning,
    driftUnexpectedStage_filter m _ row isMissingWarning (fun k => rfl),
    driftZodStage_filter parse row _ isMissingWarning (fun issues => rfl)]

theorem validate_missing_filter_seen (parse : SimpleRow → List String)
    (m : ColMap) (row : SimpleRow) (logged : List String)
    (hsig : missingSig (missingProperties m row) ∈ logged) :
    (validateDatabaseSchema (some parse) m logged row).2.filter isMissingWarning = [] := by
  rw [validateDatabaseSchema_eq, driftMissingStage_seen m row logged hsig]
  simp [List.filter_append,
    driftUnexpectedStage_filter m _ row isMissingWarning (fun k => rfl),
    driftZodStage_filter parse row _ isMissingWarning (fun issues => rfl)]

theorem validate_logged_mem (parse : SimpleRow → List String) (m : ColMap)
    (row : SimpleRow) (a : String) (logged : List String)
    (h : a ∈ (driftMissingStage m logged row).1) :
    a ∈ (validateDatabaseSchema (some parse) m logged row).1 := by
  rw [validateDatabaseSchema_eq]
  exact driftZodStage_mem parse row a _ (driftUnexpectedStage_mem m row a _ h)

/-- C6: on one client instance (whose dedup set starts empty), presenting
the same missing-property condition in two successive validations emits the
missing-properties warning exactly once: the first call emits it, and the
second call over the identical row emits no missing-properties warning. -/
theorem drift_missing_warning_deduplicated (parse : SimpleRow → List String)
    (m : ColMap) (row : SimpleRow) (hmiss : missingProperties m row ≠ []) :
    ((validateDatabaseSchema (some parse) m [] row).2.filter isMissingWarning =
      [DriftWarning.missing (missingProperties m row)]) ∧
    ((validateDatabaseSchema (some parse) m
        (validateDatabaseSchema (some parse) m [] row).1 row).2.filter
      isMissingWarning = []) := by
  refine ⟨validate_missing_filter_fresh parse m row [] hmiss (by simp), ?_⟩
  apply validate_missing_filter_seen
  apply validate_logged_mem
  rw [driftMissingStage_fresh m row [] hmiss (by simp)]
  exact List.mem_cons_self _ _

theorem drift_missing_warning_deduplicated_witness :
    missingProperties bookRatingMap [] ≠ [] ∧
    (((validateDatabaseSchema (some (fun _ => [])) bookRatingMap [] []).2.filter
        isMissingWarning =
      [DriftWarning.missing (missingProperties bookRatingMap [])]) ∧
    ((validateDatabaseSchema (some (fun _ => [])) bookRatingMap
        (validateDatabaseSchema (some (fun _ => [])) bookRatingMap [] []).1
        []).2.filter isMissingWarning = [])) :=
  ⟨by decide,
   drift_missing_warning_deduplicated (fun _ => []) bookRatingMap [] (by decide)⟩

/-! Helper lemmas for the simplified-row key invariant. -/

theorem mem_keys_jsObjSet {α : Type} (a k : String) (v : α) :
    ∀ l : List (String × α), a ∈ (jsObjSet l k v).map Prod.fst →
      a = k ∨ a ∈ l.map Prod.fst := by
  intro l
  induction l with
  | nil =>
    intro h
    simp [jsObjSet] at h
    exact Or.inl h
  | cons p rest ih =>
    intro h
    obtain ⟨k', v'⟩ := p
    rw [jsObjSet] at h
    by_cases hc : k' = k
    · rw [if_pos hc] at h
      simp only [List.map_cons, List.mem_cons] at h
      rcases h with h | h
      · exact Or.inl h
      · exact Or.inr (List.mem_cons_of_mem _ h)
    · rw [if_neg hc] at h
      simp only [List.map_cons, List.mem_cons] at h
      rcases h with h | h
      · exact Or.inr (by simp [h])
      · rcases ih h with h' | h'
        · exact Or.inl h'
        · exact Or.inr (List.mem_cons_of_mem _ h')

theorem mem_dedupKeys (a : String) : ∀ l : List String, a ∈ dedupKeys l → a ∈ l := by
  intro l
  induction l with
  | nil => intro h; simp [dedupKeys] at h
  | cons k rest ih =>
    intro h
    rw [dedupKeys] at h
    rcases List.mem_cons.mp h with h | h
    · simp [h]
    · exact List.mem_cons_of_mem _ (ih (List.mem_of_mem_filter h))

theorem processRow_keys_aux (m : ColMap) :
    ∀ (props : List (String × JVal)) (acc : SimpleRow),
      (∀ a ∈ rowKeys acc, (lookupCol m a).isSome = true) →
      ∀ a ∈ rowKeys (props.foldl
        (fun acc p =>
          match lookupCol m (camelize p.1) with
          | some e => jsObjSet acc (camelize p.1) (getResponseValue e.type p.2)
          | none => acc) acc), (lookupCol m a).isSome = true := by
  intro props
  induction props with
  | nil => intro acc hacc a ha; exact hacc a ha
  | cons p rest ih =>
    intro acc hacc a ha
    rw [List.foldl_cons] at ha
    refine ih _ ?_ a ha
    intro b hb
    cases hl : lookupCol m (camelize p.1) with
    | none => simp only [hl] at hb; exact hacc b hb
    | some e =>
      simp only [hl] at hb
      rcases mem_keys_jsObjSet b (camelize p.1) _ acc hb with hbk | hbm
      · rw [hbk, hl]; rfl
      · exact hacc b hbm

theorem unexpectedProperties_nil_stage (m : ColMap) (logged : List String)
    (row : SimpleRow) (h : unexpectedProperties m row = []) :
    driftUnexpectedStage m logged row = (logged, []) := by
  unfold driftUnexpectedStage
  rw [h]
  rfl

/-- C9: every simplified row the Response Simplifier produces has only keys
resolving in the column mapping, so the Schema Drift Validator's unexpected
property check finds nothing on such a row and that warning branch emits no
warning. -/
theorem simplified_row_keys_in_mapping (m : ColMap) (obj : String)
    (props : List (String × JVal)) (row : SimpleRow)
    (parse : SimpleRow → List String) (logged : List String)
    (h : processRow m { object := obj, properties := some props } = .ok (some row)) :
    unexpectedProperties m row = [] ∧
    ((validateDatabaseSchema (some parse) m logged row).2).filter
      isUnexpectedWarning = [] := by
  have hrow : props.foldl
      (fun acc p =>
        match lookupCol m (camelize p.1) with
        | some e => jsObjSet acc (camelize p.1) (getResponseValue e.type p.2)
        | none => acc) [] = row := by
    unfold processRow at h
    rw [if_neg (by simp)] at h
    simpa using h
  have hkeys : ∀ a ∈ rowKeys row, (lookupCol m a).isSome = true := by
    rw [← hrow]
    exact processRow_keys_aux m props [] (by intro a ha; simp [rowKeys] at ha)
  have hu : unexpectedProperties m row = [] := by
    unfold unexpectedProperties
    rw [List.filter_eq_nil_iff]
    intro a ha
    have := hkeys a (mem_dedupKeys a _ ha)
    simp [Option.isNone, this]
    cases hl : lookupCol m a with
    | none => rw [hl] at this; simp at this
    | some e => rfl
  refine ⟨hu, ?_⟩
  rw [validateDatabaseSchema_eq]
  simp only [List.filter_append]
  rw [unexpectedProperties_nil_stage m _ row hu,
    driftMissingStage_filter m row _ isUnexpectedWarning (fun ps => rfl),
    driftZodStage_filter parse row _ isUnexpectedWarning (fun issues => rfl)]
  simp

theorem simplified_row_keys_in_mapping_witness :
    unexpectedProperties bookRatingMap [("bookRating", JVal.jstr "Good")] = [] ∧
    ((validateDatabaseSchema (some (fun _ => [])) bookRatingMap []
        [("bookRating", JVal.jstr "Good")]).2).filter isUnexpectedWarning = [] :=
  simplified_row_keys_in_mapping bookRatingMap "page"
    [("Book Rating", JVal.jobj [("select", JVal.jobj [("name", JVal.jstr "Good")])])]
    [("bookRating", JVal.jstr "Good")] (fun _ => []) [] rfl

/-! Round-trip of semantic names through compilation and camelize. -/

theorem lookupCol_nil (s : String) : lookupCol [] s = none := rfl

theorem lookupCol_cons (k' : String) (e' : ColEntry) (rest : ColMap) (s : String) :
    lookupCol ((k', e') :: rest) s = if k' = s then some e' else lookupCol rest s := rfl

theorem jsObjSet_nil {α : Type} (k : String) (v : α) :
    jsObjSet ([] : List (String × α)) k v = [(k, v)] := rfl

theorem jsObjSet_cons {α : Type} (k' k : String) (v' v : α) (rest : List (String × α)) :
    jsObjSet ((k', v') :: rest) k v =
      if k' = k then (k, v) :: rest else (k', v') :: jsObjSet rest k v := rfl

theorem lookupCol_jsObjSet (k : String) (e : ColEntry) :
    ∀ (m : ColMap) (s : String),
      lookupCol (jsObjSet m k e) s = if s = k then some e else lookupCol m s := by
  intro m
  induction m with
  | nil =>
    intro s
    rw [jsObjSet_nil, lookupCol_cons, lookupCol_nil]
    by_cases h : s = k
    · rw [if_pos h.symm, if_pos h]
    · rw [if_neg (fun hh => h hh.symm), if_neg h]
  | cons p rest ih =>
    intro s
    obtain ⟨k', e'⟩ := p
    rw [jsObjSet_cons]
    by_cases hk : k' = k
    · rw [if_pos hk, lookupCol_cons, lookupCol_cons]
      by_cases hs : s = k
      · rw [if_pos hs.symm, if_pos hs]
      · rw [if_neg (fun h => hs h.symm), if_neg hs,
          if_neg (fun h => hs (by rw [← h]; exact hk))]
    · rw [if_neg hk, lookupCol_cons]
      by_cases hs : k' = s
      · have hsk : ¬ s = k := fun h => hk (by rw [hs, h])
        rw [if_pos hs, if_neg hsk, lookupCol_cons, if_pos hs]
      · rw [if_neg hs, ih s, lookupCol_cons, if_neg hs]

/-- The invariant the generation loop guarantees: every key of the column
mapping is the camelization of the remote name stored under it. -/
def camelizedMap (m : ColMap) : Prop :=
  ∀ s e, lookupCol m s = some e → camelize e.columnName = s

theorem camelizedMap_foldl (props : List (String × DatabasePropertyType)) :
    ∀ m0 : ColMap, camelizedMap m0 →
      camelizedMap (props.foldl
        (fun m p =>
          if isSupportedPropertyType p.2 then
            jsObjSet m (camelize p.1) ⟨p.1, p.2⟩
          else m) m0) := by
  induction props with
  | nil => intro m0 h; exact h
  | cons p rest ih =>
    intro m0 h0
    rw [List.foldl_cons]
    refine ih _ ?_
    by_cases hsup : isSupportedPropertyType p.2
    · rw [if_pos hsup]
      intro s e hlook
      rw [lookupCol_jsObjSet] at hlook
      by_cases hs : s = camelize p.1
      · rw [if_pos hs] at hlook
        cases hlook
        rw [hs]
      · rw [if_neg hs] at hlook
        exact h0 s e hlook
    · rw [if_neg hsup]
      exact h0

theorem buildColumnMap_camelized (props : List (String × DatabasePropertyType)) :
    camelizedMap (buildColumnMap props) :=
  camelizedMap_foldl props [] (by intro s e h; simp [lookupCol] at h)

mutual

theorem roundTripQF (M : ColMap) (hM : camelizedMap M) :
    (F : QF) → canonicalB F = true →
    (semLeaves F).all (fun s => (lookupCol M s).isSome) = true →
    ∃ w : Option ApiFilter, recursivelyBuildFilter M F = .ok w ∧
      (wirePropsOpt w).map camelize = semLeaves F
  | .nil, hc, _ => by simp [canonicalB] at hc
  | .compoundEntry key children (.compoundEntry a b c), hc, _ => by
    simp [canonicalB] at hc
  | .compoundEntry key children (.leafEntry a b c), hc, _ => by
    simp [canonicalB] at hc
  | .leafEntry key body (.compoundEntry a b c), hc, _ => by
    simp [canonicalB] at hc
  | .leafEntry key body (.leafEntry a b c), hc, _ => by
    simp [canonicalB] at hc
  | .compoundEntry key children .nil, hc, hl => by
    rw [canonicalB] at hc
    simp only [Bool.and_eq_true, Bool.or_eq_true, beq_iff_eq] at hc
    have hkey : key = "and" ∨ key = "or" := hc.1
    have hsem : semLeaves (.compoundEntry key children .nil) = semLeavesList children := by
      rw [semLeaves]
      simp [hkey, semLeaves]
    rw [hsem] at hl
    obtain ⟨cs, hcs, hwire⟩ := roundTripList M hM children hc.2 hl
    refine ⟨some (if key = "and" then .andF cs else .orF cs), ?_, ?_⟩
    · rw [recursivelyBuildFilter, if_pos hkey, hcs]
      rfl
    · rw [hsem]
      rcases Classical.em (key = "and") with hand | hand
      · rw [if_pos hand]
        exact hwire
      · rw [if_neg hand]
        exact hwire
  | .leafEntry key body .nil, hc, hl => by
    rw [canonicalB] at hc
    simp only [Bool.not_eq_true', Bool.or_eq_false_iff, beq_eq_false_iff_ne] at hc
    have hkey : ¬ (key = "and" ∨ key = "or") := by
      intro h
      rcases h with h | h
      · exact hc.1 h
      · exact hc.2 h
    have hsem : semLeaves (.leafEntry key body .nil) = [key] := by
      rw [semLeaves]
      simp [hkey, semLeaves]
    rw [hsem] at hl
    simp only [List.all_cons, List.all_nil, Bool.and_true] at hl
    obtain ⟨e, he⟩ := Option.isSome_iff_exists.mp hl
    refine ⟨some (.single e.columnName (kindKey e.type) (.ofLeaf body)), ?_, ?_⟩
    · rw [recursivelyBuildFilter, if_neg hkey, he]
    · rw [hsem]
      show [camelize e.columnName] = [key]
      rw [hM key e he]

theorem roundTripList (M : ColMap) (hM : camelizedMap M) :
    (L : QFList) → canonicalListB L = true →
    (semLeavesList L).all (fun s => (lookupCol M s).isSome) = true →
    ∃ cs : ApiList, buildFilterList M L = .ok cs ∧
      (wirePropsList cs).map camelize = semLeavesList L
  | .lnil, _, _ => ⟨.anil, rfl, rfl⟩
  | .lcons f rest, hc, hl => by
    rw [canonicalListB] at hc
    simp only [Bool.and_eq_true] at hc
    rw [semLeavesList, List.all_append, Bool.and_eq_true] at hl
    obtain ⟨w, hw, hwire⟩ := roundTripQF M hM f hc.1 hl.1
    obtain ⟨cs, hcs, hcswire⟩ := roundTripList M hM rest hc.2 hl.2
    refine ⟨.acons w cs, ?_, ?_⟩
    · rw [buildFilterList, hw]
      show Except.bind (buildFilterList M rest) _ = _
      rw [hcs]
      rfl
    · rw [semLeavesList]
      cases w with
      | none =>
        simp only [wirePropsOpt, List.map_nil] at hwire
        show (wirePropsList cs).map camelize = semLeaves f ++ semLeavesList rest
        rw [hcswire, ← hwire]
        rfl
      | some wf =>
        simp only [wirePropsOpt] at hwire
        show ((wireProps wf ++ wirePropsList cs).map camelize) =
          semLeaves f ++ semLeavesList rest
        rw [List.map_append, hcswire, hwire]

end

/-- C4 counterexample: over the mapping generated for `Rating: select`,
`Price: number`, the single filter node carrying both leaf keys `rating` and
`price` (all of whose leaf names are keys of the mapping) compiles to a wire
filter whose only recovered leaf name is `rating`; the leaf `price` of the
source filter is not recovered by camelizing the wire leaves' property
fields. -/
theorem filter_roundtrip_counterexample :
    "price" ∈ semLeaves twoLeafFilter ∧
    (semLeaves twoLeafFilter).all
      (fun s => (lookupCol ratingPriceMap s).isSome) = true ∧
    (recursivelyBuildFilter ratingPriceMap twoLeafFilter).map
      (fun w => (wirePropsOpt w).map camelize) = .ok ["rating"] ∧
    ¬ "price" ∈ (["rating"] : List String) := by
  refine ⟨by decide, by decide, by rfl, by decide⟩

/-- C4 amended: for a column mapping built by generation and a filter in
canonical form (one key per node) whose leaf names all occur in the mapping,
compiling to a wire filter and camelizing every wire leaf's property field
recovers exactly the original semantic leaf names in order.  For nodes with
more than one key, the compiler's first-key-only behavior (C3) drops the
later leaves from the wire filter, so only the leaves present in the wire
output are recovered. -/
theorem filter_roundtrip_camelize (props : List (String × DatabasePropertyType))
    (F : QF) (hc : canonicalB F = true)
    (hl : (semLeaves F).all
      (fun s => (lookupCol (buildColumnMap props) s).isSome) = true) :
    (recursivelyBuildFilter (buildColumnMap props) F).map
      (fun w => (wirePropsOpt w).map camelize) = .ok (semLeaves F) := by
  obtain ⟨w, hw, hwire⟩ :=
    roundTripQF (buildColumnMap props) (buildColumnMap_camelized props) F hc hl
  rw [hw]
  simp [Except.map, hwire]

theorem filter_roundtrip_camelize_witness :
    (recursivelyBuildFilter (buildColumnMap [("Rating", .select), ("Price", .number)])
        canonicalAndFilter).map
      (fun w => (wirePropsOpt w).map camelize) = .ok (semLeaves canonicalAndFilter) :=
  filter_roundtrip_camelize [("Rating", .select), ("Price", .number)]
    canonicalAndFilter (by decide) (by decide)

end NotionOrm
